import Mathlib

/-!
Verification of the behavior3js fork (Talisca/behavior3js) against its
natural-language specification.

The development shallowly embeds the two source files:

* `src/composites/Parallel.js` — the `Parallel` composite node: its
  `initialize` method (here `Parallel.initNode`, renamed because the gate
  reserves the source name) and its `tick` method (here `Parallel.tick`).
* the unnamed functions file — `b3.createUUID`, `b3.Class` and
  `b3.LoadProject` (here `LoadProject`).

JavaScript machine details that the claims depend on are made explicit:

* both files begin with `"use strict"`, so an assignment to an undeclared
  identifier raises a `ReferenceError`, and the `this` of a plain
  `forEach` callback is `undefined`, so reading a property from it raises
  a `TypeError`;
* `typeof null` is the string `"object"`;
* fallible code is embedded in `Except JsError`;
* JS objects used as string-keyed dictionaries are embedded as
  association lists (`lookupKV` returns the binding that a JS property
  read would see);
* object identity (references) is embedded arena-style: every node
  instance lives in a table keyed by `(tree id, local node id)`, and a
  `NodeRef` names either a `BehaviorTree` object (`NodeRef.tree`) or a
  node instance (`NodeRef.localNode`); two wired slots alias the same JS
  object exactly when their `NodeRef`s are equal.
-/

/-- The four JS runtime errors the embedded code can raise. -/
inductive JsError where
  | referenceError (msg : String)
  | typeError (msg : String)
  | evalError (msg : String)
  deriving DecidableEq, Repr

/-- The b3 outcome constants SUCCESS, FAILURE, RUNNING, ERROR. -/
inductive Outcome where
  | success
  | failure
  | running
  | error
  deriving DecidableEq, Repr

/-- Number of occurrences of outcome `o` in a list of child outcomes. -/
def countOut (o : Outcome) : List Outcome → Nat
  | [] => 0
  | x :: xs => (if x = o then 1 else 0) + countOut o xs

/-- The local `counter` object of `Parallel.tick` (lines 57-61): one
tally per outcome constant, each starting at 0. -/
structure Counter where
  success : Nat
  failure : Nat
  running : Nat
  error : Nat
  deriving DecidableEq, Repr

/-- `counter` after lines 57-61: every tally is 0. -/
def Counter.init : Counter := ⟨0, 0, 0, 0⟩

/-- `counter[outcome]++` (line 64). -/
def Counter.incr (c : Counter) : Outcome → Counter
  | .success => { c with success := c.success + 1 }
  | .failure => { c with failure := c.failure + 1 }
  | .running => { c with running := c.running + 1 }
  | .error => { c with error := c.error + 1 }

/-- One interaction of `Parallel.tick` with a child, identified by the
child's position in `this.children`.  Line 64 reads
`node._execute(tick)`, so the embedding only ever emits `execute` calls;
the `rawTick` constructor exists so that "the child's execute entry
point, not raw tick" is expressible. -/
inductive ChildCall where
  | execute (index : Nat)
  | rawTick (index : Nat)
  deriving DecidableEq, Repr

/-- Result of one `Parallel.tick` call: the returned outcome, the final
local `counter`, and the sequence of child calls the tick performed. -/
structure TickResult where
  result : Outcome
  counter : Counter
  calls : List ChildCall
  deriving DecidableEq, Repr

/-- The `this.children.forEach` loop of `Parallel.tick` (lines 63-65):
each child in list order is executed via `_execute` (recorded in the
call log) and its outcome is tallied.  The child at position `i`
produces the `i`-th outcome of the input list. -/
def Parallel.tickLoop (c : Counter) (calls : List ChildCall) (i : Nat) :
    List Outcome → Counter × List ChildCall
  | [] => (c, calls)
  | o :: rest => Parallel.tickLoop (c.incr o) (calls ++ [ChildCall.execute i]) (i + 1) rest

/-- `Parallel.tick` (lines 56-73), as a function of the thresholds
`this.F` and `this.S` and of the outcomes the children's `_execute`
calls return this tick: run the forEach loop, then
`if (counter[SUCCESS] >= S) return SUCCESS;
 else if (counter[FAILURE] >= F) return FAILURE;
 return RUNNING;` (lines 67-72). -/
def Parallel.tick (F S : Int) (children : List Outcome) : TickResult :=
  let st := Parallel.tickLoop Counter.init [] 0 children
  { result :=
      if S ≤ (st.1.success : Int) then Outcome.success
      else if F ≤ (st.1.failure : Int) then Outcome.failure
      else Outcome.running
    counter := st.1
    calls := st.2 }

/-- The call log `[execute i, execute (i+1), ...]` of length `n`. -/
def callsFrom (i : Nat) : Nat → List ChildCall
  | 0 => []
  | n + 1 => ChildCall.execute i :: callsFrom (i + 1) n

theorem tickLoop_eq (l : List Outcome) : ∀ (c : Counter) (calls : List ChildCall) (i : Nat),
    Parallel.tickLoop c calls i l = (l.foldl Counter.incr c, calls ++ callsFrom i l.length) := by
  induction l with
  | nil => intro c calls i; simp [Parallel.tickLoop, callsFrom]
  | cons o rest ih =>
      intro c calls i
      simp [Parallel.tickLoop, List.foldl, callsFrom, ih (c.incr o) (calls ++ [ChildCall.execute i]) (i + 1)]

theorem foldl_incr_success (l : List Outcome) : ∀ c : Counter,
    (l.foldl Counter.incr c).success = c.success + countOut Outcome.success l := by
  induction l with
  | nil => intro c; simp [countOut]
  | cons o rest ih =>
      intro c
      cases o <;> simp [List.foldl, Counter.incr, countOut, ih] <;> omega

theorem foldl_incr_failure (l : List Outcome) : ∀ c : Counter,
    (l.foldl Counter.incr c).failure = c.failure + countOut Outcome.failure l := by
  induction l with
  | nil => intro c; simp [countOut]
  | cons o rest ih =>
      intro c
      cases o <;> simp [List.foldl, Counter.incr, countOut, ih] <;> omega

theorem foldl_incr_error (l : List Outcome) : ∀ c : Counter,
    (l.foldl Counter.incr c).error = c.error + countOut Outcome.error l := by
  induction l with
  | nil => intro c; simp [countOut]
  | cons o rest ih =>
      intro c
      cases o <;> simp [List.foldl, Counter.incr, countOut, ih] <;> omega

/-- The outcome of `Parallel.tick`, rephrased through outcome counts. -/
theorem parallel_tick_result_eq (F S : Int) (cs : List Outcome) :
    (Parallel.tick F S cs).result =
      if S ≤ (countOut Outcome.success cs : Int) then Outcome.success
      else if F ≤ (countOut Outcome.failure cs : Int) then Outcome.failure
      else Outcome.running := by
  simp [Parallel.tick, tickLoop_eq, foldl_incr_success, foldl_incr_failure, Counter.init]

/-- The final counter of `Parallel.tick`, rephrased through outcome counts. -/
theorem parallel_tick_counter_eq (F S : Int) (cs : List Outcome) :
    (Parallel.tick F S cs).counter = cs.foldl Counter.incr Counter.init := by
  simp [Parallel.tick, tickLoop_eq]

theorem callsFrom_succ (n : Nat) : ∀ i : Nat,
    callsFrom i (n + 1) = callsFrom i n ++ [ChildCall.execute (i + n)] := by
  induction n with
  | zero => intro i; simp [callsFrom]
  | succ m ih =>
      intro i
      have h := ih (i + 1)
      have harith : i + 1 + m = i + (m + 1) := by omega
      rw [harith] at h
      show ChildCall.execute i :: callsFrom (i + 1) (m + 1) =
        (ChildCall.execute i :: callsFrom (i + 1) m) ++ [ChildCall.execute (i + (m + 1))]
      rw [h, List.cons_append]

theorem callsFrom_zero (n : Nat) :
    callsFrom 0 n = (List.range n).map ChildCall.execute := by
  induction n with
  | zero => simp [callsFrom]
  | succ m ih => simp [callsFrom_succ, List.range_succ, ih]

/-- C1: For every Parallel node with thresholds F and S and every
assignment of outcomes to its children, one call to tick returns
SUCCESS if and only if the number of children returning SUCCESS is at
least S; otherwise it returns FAILURE if and only if the number of
children returning FAILURE is at least F; otherwise it returns RUNNING.
The SUCCESS threshold is checked before the FAILURE threshold: whenever
the SUCCESS count meets S the result is SUCCESS, even if the FAILURE
count also meets F. -/
theorem parallel_tick_threshold (F S : Int) (cs : List Outcome) :
    ((Parallel.tick F S cs).result = Outcome.success ↔
      S ≤ (countOut Outcome.success cs : Int)) ∧
    ((Parallel.tick F S cs).result = Outcome.failure ↔
      ((countOut Outcome.success cs : Int) < S ∧ F ≤ (countOut Outcome.failure cs : Int))) ∧
    ((Parallel.tick F S cs).result = Outcome.running ↔
      ((countOut Outcome.success cs : Int) < S ∧ (countOut Outcome.failure cs : Int) < F)) := by
  rw [parallel_tick_result_eq]
  by_cases hs : S ≤ (countOut Outcome.success cs : Int)
  · simp [hs]
  · by_cases hf : F ≤ (countOut Outcome.failure cs : Int)
    · simp [hs, hf]
      omega
    · simp [hs, hf]
      constructor <;> omega

/-- C6: For every Parallel node and every tick call, every child is
executed exactly once, via the child's `_execute` entry point (line 64
calls `node._execute(tick)`, never the raw `tick` method), in
left-to-right list order, with no short-circuiting regardless of the
outcomes earlier children produce: the call log of one tick is exactly
`[execute 0, execute 1, ..., execute (n-1)]` for `n` children. -/
theorem parallel_tick_executes_all (F S : Int) (cs : List Outcome) :
    (Parallel.tick F S cs).calls = (List.range cs.length).map ChildCall.execute := by
  simp [Parallel.tick, tickLoop_eq, callsFrom_zero]

/-- C8: For every Parallel node with zero children, tick returns
SUCCESS if S ≤ 0, else FAILURE if F ≤ 0, else RUNNING — the same
threshold rule with all outcome counts equal to zero. -/
theorem parallel_tick_no_children (F S : Int) :
    (Parallel.tick F S []).result =
      if S ≤ 0 then Outcome.success else if F ≤ 0 then Outcome.failure else Outcome.running := by
  rw [parallel_tick_result_eq]
  simp [countOut]

theorem countOut_filter_error (o : Outcome) (cs : List Outcome) (h : o ≠ Outcome.error) :
    countOut o (cs.filter (fun x => x ≠ Outcome.error)) = countOut o cs := by
  induction cs with
  | nil => rfl
  | cons x xs ih =>
      simp only [decide_not] at ih
      by_cases hx : x = Outcome.error
      · subst hx
        simp [List.filter_cons, countOut, ih, Ne.symm h]
      · simp [List.filter_cons, hx, countOut, ih]

/-- C10: For every Parallel node and every assignment of outcomes to
its children, tick returns only SUCCESS, FAILURE or RUNNING, never
ERROR; children's ERROR outcomes are tallied (the final counter's error
field counts them) but contribute to neither threshold: dropping all
ERROR children leaves the result unchanged. -/
theorem parallel_tick_never_error (F S : Int) (cs : List Outcome) :
    (Parallel.tick F S cs).result ≠ Outcome.error ∧
    (Parallel.tick F S cs).counter.error = countOut Outcome.error cs ∧
    (Parallel.tick F S cs).result =
      (Parallel.tick F S (cs.filter (fun o => o ≠ Outcome.error))).result := by
  refine ⟨?_, ?_, ?_⟩
  · rw [parallel_tick_result_eq]
    by_cases hs : S ≤ (countOut Outcome.success cs : Int)
    · simp [hs]
    · by_cases hf : F ≤ (countOut Outcome.failure cs : Int) <;> simp [hs, hf]
  · rw [parallel_tick_counter_eq, foldl_incr_error]
    simp [Counter.init]
  · rw [parallel_tick_result_eq, parallel_tick_result_eq,
      countOut_filter_error Outcome.success cs (by simp),
      countOut_filter_error Outcome.failure cs (by simp)]

/-- The `settings` object a Parallel node is constructed with: optional
`F` and `S` entries (`none` embeds an absent/undefined property). -/
structure ParallelSettings where
  F : Option Int
  S : Option Int
  deriving DecidableEq, Repr

/-- The instance state `this.F`, `this.S` that lines 38-39 intend to set. -/
structure ParallelNode where
  F : Int
  S : Int
  deriving DecidableEq, Repr

/-- Strict-mode JS assignment to a bare identifier: it succeeds only if
some enclosing scope declares the identifier; otherwise it raises
`ReferenceError: <name> is not defined`.  (A prototype property of the
same name is not a variable binding and does not count.) -/
def strictAssign (declared : List String) (name : String) : Except JsError Unit :=
  if declared.contains name then Except.ok ()
  else Except.error (JsError.referenceError (name ++ " is not defined"))

/-- The `initialize` method of `b3.Parallel` (Parallel.js lines 34-40),
invoked by the `b3.Class`-generated constructor on `new b3.Parallel(settings)`.
Line 35 executes `parameters = settings || {};` under the file's
`"use strict"`; no enclosing scope declares a variable `parameters`
(the spec confirms the identifier "is never properly scoped"), so the
assignment raises a ReferenceError and the assignments to `this.F` and
`this.S` on lines 38-39 (`settings.F || 0`, `settings.S || 0`) are
never reached. -/
def Parallel.initNode (settings : ParallelSettings) : Except JsError ParallelNode :=
  match strictAssign [] "parameters" with
  | Except.error e => Except.error e
  | Except.ok _ => Except.ok { F := settings.F.getD 0, S := settings.S.getD 0 }

/-- C4 (counterexample): constructing a Parallel node with a concrete
settings object `{F: 1, S: 2}` does not succeed — contrary to the
claim, the unscoped `parameters` assignment is not a silent no-op but a
strict-mode ReferenceError. -/
theorem parallel_initNode_counterexample :
    Parallel.initNode { F := some 1, S := some 2 } =
      Except.error (JsError.referenceError "parameters is not defined") := rfl

/-- C4 (amended): invoking the Parallel initializer with any settings
object raises a ReferenceError, because line 35 assigns to the
undeclared identifier `parameters` in strict mode; the initializer
never returns normally, and `this.F`, `this.S` are never assigned. -/
theorem parallel_initNode_throws (settings : ParallelSettings) :
    Parallel.initNode settings =
      Except.error (JsError.referenceError "parameters is not defined") := rfl

/-- Property bags are string-keyed dictionaries of (here) string values;
only presence and propagation matter to the claims. -/
def Props := List (String × String)
deriving instance DecidableEq, Repr for Props

/-- First binding for key `k` in an association list built so that the
most recent JS assignment is the first match (see `treesPass1Aux`). -/
def lookupKV {κ α : Type} [DecidableEq κ] : List (κ × α) → κ → Option α
  | [], _ => none
  | p :: rest, k => if p.1 = k then some p.2 else lookupKV rest k

/-- JS `a || b` for string-valued fields: an absent (`none`) or empty
(falsy) string falls back to the default. -/
def jsOrStr (x : Option String) (dflt : String) : String :=
  match x with
  | some s => if s = "" then dflt else s
  | none => dflt

/-- JS `a || b` when `a` is a possibly-absent object: any present
object (even empty) is truthy. -/
def jsOrProps (x : Option Props) (dflt : Props) : Props :=
  match x with
  | some p => p
  | none => dflt

/-- One node specification of a serialized tree: `name`, optional
metadata and property bag, and the category-dependent wiring fields
`children` (list of local node ids) and `child` (single local node id). -/
structure NodeSpec where
  name : String
  id : Option String
  title : Option String
  description : Option String
  properties : Option Props
  children : Option (List String)
  child : Option String
  deriving DecidableEq, Repr

/-- One tree specification of a project: id, metadata, the designated
root's local node id, and the node table in JS property-insertion order. -/
structure TreeSpec where
  id : String
  title : Option String
  description : Option String
  properties : Option Props
  root : String
  nodes : List (String × NodeSpec)
  deriving DecidableEq, Repr

/-- A project: `{trees: [...]}`. -/
structure ProjectData where
  trees : List TreeSpec
  deriving DecidableEq, Repr

/-- Node categories (the b3 constants COMPOSITE, DECORATOR, ACTION,
CONDITION). -/
inductive Category where
  | composite
  | decorator
  | action
  | condition
  deriving DecidableEq, Repr

/-- A node class registered under a name, either in the caller-supplied
custom dictionary (`names`) or in the built-in `b3` namespace: it
carries the class name and the category its instances get.  (The `b3`
namespace is embedded by its node-class members; the individual class
bodies are not under src/.) -/
structure NodeClass where
  name : String
  category : Category
  deriving DecidableEq, Repr

/-- A reference to a JS object in the loaded graph: either the
`BehaviorTree` object stored at `trees[treeId]`, or the node instance
created for local id `localId` while loading tree `treeId`.  Two wired
slots hold the same JS object exactly when their `NodeRef`s are equal. -/
inductive NodeRef where
  | tree (treeId : String)
  | localNode (treeId : String) (localId : String)
  deriving DecidableEq, Repr

/-- A live node instance: class name, category, the metadata set on
lines 179-182, and the wiring fields filled by the connect loop (lines
188-200).  `children` entries and an assigned `child` are `Option
NodeRef` because JS pushes `undefined` (here `none`) for a dangling
local id; `child = none` means the field was never assigned. -/
structure NodeInst where
  clsName : String
  category : Category
  id : String
  title : String
  description : String
  properties : Props
  children : List (Option NodeRef)
  child : Option (Option NodeRef)
  deriving DecidableEq, Repr

/-- `tempNodes[id]` right after the instantiation loop (lines 159-186):
either the referenced `BehaviorTree` object (line 161) or a fresh node
instance. -/
inductive PreCell where
  | subtreeRef (treeId : String)
  | inst (n : NodeInst)
  deriving DecidableEq, Repr

/-- A loaded `BehaviorTree` object: metadata (lines 145-148) and the
root reference assigned on line 203 (`none` while unset or when
`tempNodes[tree.root]` is undefined). -/
structure BTree where
  id : String
  title : String
  description : String
  properties : Props
  root : Option NodeRef
  deriving DecidableEq, Repr

/-- Modelled from the spec: the `b3.BehaviorTree` constructor is not
under src/.  Per the spec a tree has identity (generated when not
assigned), title, description and a property bag; the generated UUID of
the `k`-th constructed tree is abstracted as an injective fresh string
(the real `b3.createUUID` draws random hex digits) and the remaining
defaults as empty. -/
def newBehaviorTree (k : Nat) : BTree :=
  { id := "uuid-" ++ toString k
    title := ""
    description := ""
    properties := []
    root := none }

/-- Lines 143-150 for one tree: construct a `BehaviorTree` and override
its metadata from the specification with JS `||` defaults. -/
def mkShallowTree (k : Nat) (t : TreeSpec) : BTree :=
  let bt := newBehaviorTree k
  { bt with
    id := jsOrStr (some t.id) bt.id
    title := jsOrStr t.title bt.title
    description := jsOrStr t.description bt.description
    properties := jsOrProps t.properties bt.properties }

/-- The first `projectData.trees.forEach` pass (lines 142-151): create
one `BehaviorTree` per tree specification and store it under
`trees[tree.id]`.  The association list is built most-recent-first so
that `lookupKV` sees the binding a JS property read would see (a later
duplicate tree id overwrites an earlier one). -/
def treesPass1Aux (k : Nat) : List TreeSpec → List (String × BTree)
  | [] => []
  | t :: ts => treesPass1Aux (k + 1) ts ++ [(t.id, mkShallowTree k t)]

/-- The `trees` dictionary after pass 1, before any node is loaded. -/
def treesPass1 (ts : List TreeSpec) : List (String × BTree) :=
  treesPass1Aux 0 ts

/-- The EvalError message thrown on line 174 for an unresolvable node
name. -/
def invalidNodeNameMsg (name : String) : String :=
  "BehaviorTree.load: Invalid node name + \"" ++ name ++ "\"."

/-- Modelled from the spec: the individual node-class constructors
(other than `b3.Parallel`) are not under src/; per the spec each
constructor accepts a property bag and yields a Node with the category
fixed by its type.  The generated node id is abstracted as empty, the
default title as the class name, carrying the passed property bag.
Lines 179-182 then override id/title/description/properties from the
specification with JS `||` defaults. -/
def constructNode (cls : NodeClass) (spec : NodeSpec) : NodeInst :=
  let base : NodeInst :=
    { clsName := cls.name
      category := cls.category
      id := ""
      title := cls.name
      description := ""
      properties := jsOrProps spec.properties []
      children := []
      child := none }
  { base with
    id := jsOrStr spec.id base.id
    title := jsOrStr spec.title base.title
    description := jsOrStr spec.description base.description
    properties := jsOrProps spec.properties base.properties }

/-- One iteration of the instantiation loop (lines 159-185):
1. if `trees[spec.name]` is set, the node "is a tree" — bind the
   `BehaviorTree` object itself (line 161);
2. else if `spec.name in names`, line 168 evaluates
   `this._nodes[spec.name]`; the enclosing `forEach` callback runs in
   strict mode with no `thisArg`, so `this` is `undefined` and reading
   `_nodes` from it throws a TypeError (the caller's `names` dictionary
   is never read);
3. else if `spec.name in b3`, instantiate the built-in class;
4. else throw the EvalError of line 174.  -/
def instantiateNode (treesM : List (String × BTree)) (names b3ns : List (String × NodeClass))
    (spec : NodeSpec) : Except JsError PreCell :=
  if (lookupKV treesM spec.name).isSome then
    Except.ok (PreCell.subtreeRef spec.name)
  else if (lookupKV names spec.name).isSome then
    Except.error (JsError.typeError "Cannot read properties of undefined (reading _nodes)")
  else
    match lookupKV b3ns spec.name with
    | some cls => Except.ok (PreCell.inst (constructNode cls spec))
    | none => Except.error (JsError.evalError (invalidNodeNameMsg spec.name))

/-- The instantiation loop over a tree's node table (`for (var id in
nodes)`, lines 159-186), aborting at the first thrown error. -/
def instantiateNodes (treesM : List (String × BTree)) (names b3ns : List (String × NodeClass)) :
    List (String × NodeSpec) → Except JsError (List (String × PreCell))
  | [] => Except.ok []
  | pr :: rest =>
    match instantiateNode treesM names b3ns pr.2 with
    | Except.error e => Except.error e
    | Except.ok c =>
      match instantiateNodes treesM names b3ns rest with
      | Except.error e => Except.error e
      | Except.ok cs => Except.ok ((pr.1, c) :: cs)

/-- The JS reference stored at `tempNodes[cid]`: the `BehaviorTree`
object when the cell is a sub-tree binding, the node instance created
for this tree otherwise, and `undefined` (`none`) when `cid` has no
entry. -/
def refOf (treeId : String) (cells : List (String × PreCell)) (cid : String) : Option NodeRef :=
  match lookupKV cells cid with
  | some (PreCell.subtreeRef tid) => some (NodeRef.tree tid)
  | some (PreCell.inst _) => some (NodeRef.localNode treeId cid)
  | none => none

/-- The connect loop's body for one node (lines 192-199): a composite
with a `children` list gets each listed child's reference pushed in
specification order; a decorator with a truthy `child` id gets its
single child assigned; anything else (including a `BehaviorTree` bound
as a sub-tree, which has no `category`) is left alone. -/
def wireNode (treeId : String) (cells : List (String × PreCell)) (spec : NodeSpec)
    (n : NodeInst) : NodeInst :=
  if n.category = Category.composite then
    match spec.children with
    | some cids => { n with children := cids.map (refOf treeId cells) }
    | none => n
  else if n.category = Category.decorator then
    match spec.child with
    | some cid => if cid = "" then n else { n with child := some (refOf treeId cells cid) }
    | none => n
  else n

/-- The connect loop (lines 188-200) over one tree's node table,
producing this tree's slice of the node arena: the wired instance for
every local id bound to a node instance (sub-tree cells are references
into the `trees` dictionary, not separate instances). -/
def wireCells (treeId : String) (cells : List (String × PreCell))
    (nodes : List (String × NodeSpec)) : List ((String × String) × NodeInst) :=
  nodes.filterMap (fun pr =>
    match lookupKV cells pr.1 with
    | some (PreCell.inst n) => some ((treeId, pr.1), wireNode treeId cells pr.2 n)
    | some (PreCell.subtreeRef _) => none
    | none => none)

/-- Replace the value of the first binding of `k` (the binding a JS
property write would overwrite); no-op when `k` is unbound. -/
def updateFirst {α : Type} : List (String × α) → String → (α → α) → List (String × α)
  | [], _, _ => []
  | p :: rest, k, f =>
    if p.1 = k then (p.1, f p.2) :: rest else p :: updateFirst rest k f

/-- The loader state while the second `forEach` pass runs: the `trees`
dictionary and the arena of node instances created so far. -/
structure LoadState where
  treesM : List (String × BTree)
  arena : List ((String × String) × NodeInst)
  deriving DecidableEq, Repr

/-- The body of the second `forEach` pass for one tree (lines 155-204):
instantiate the node table against the current `trees` dictionary, run
the connect loop, then assign `trees[tree.id].root = tempNodes[tree.root]`. -/
def loadTreeStep (names b3ns : List (String × NodeClass)) (st : LoadState)
    (t : TreeSpec) : Except JsError LoadState :=
  match instantiateNodes st.treesM names b3ns t.nodes with
  | Except.error e => Except.error e
  | Except.ok cells =>
    Except.ok
      { treesM := updateFirst st.treesM t.id (fun bt => { bt with root := refOf t.id cells t.root })
        arena := st.arena ++ wireCells t.id cells t.nodes }

/-- The second `forEach` pass over all trees (lines 155-204), aborting
at the first thrown error. -/
def loadTrees (names b3ns : List (String × NodeClass)) (st : LoadState) :
    List TreeSpec → Except JsError LoadState
  | [] => Except.ok st
  | t :: ts =>
    match loadTreeStep names b3ns st t with
    | Except.error e => Except.error e
    | Except.ok st1 => loadTrees names b3ns st1 ts

/-- The fully loaded project: the returned `trees` dictionary plus the
arena the node references point into. -/
structure LoadedProject where
  trees : List (String × BTree)
  arena : List ((String × String) × NodeInst)
  deriving DecidableEq, Repr

/-- What `b3.LoadProject` gives its caller when it returns normally:
`none` embeds the bare `return;` of line 135 (the caller receives
`undefined`), and `consoleErrors` records what was logged via
`console.error`. -/
structure LoadResult where
  trees : Option LoadedProject
  consoleErrors : List String
  deriving DecidableEq, Repr

/-- The JS primitive type tags other than objects; `typeof` of each is
never the string `"object"`. -/
inductive JsPrim where
  | undefinedV
  | booleanV
  | numberV
  | stringV
  | symbolV
  | bigintV
  | functionV
  deriving DecidableEq, Repr

/-- A value passed as `projectData`: a project object, `null`, or a
primitive. -/
inductive ProjectInput where
  | obj (p : ProjectData)
  | jsNull
  | prim (t : JsPrim)
  deriving DecidableEq, Repr

/-- JS `typeof`: objects and `null` both give `"object"`. -/
def ProjectInput.typeof : ProjectInput → String
  | ProjectInput.obj _ => "object"
  | ProjectInput.jsNull => "object"
  | ProjectInput.prim JsPrim.undefinedV => "undefined"
  | ProjectInput.prim JsPrim.booleanV => "boolean"
  | ProjectInput.prim JsPrim.numberV => "number"
  | ProjectInput.prim JsPrim.stringV => "string"
  | ProjectInput.prim JsPrim.symbolV => "symbol"
  | ProjectInput.prim JsPrim.bigintV => "bigint"
  | ProjectInput.prim JsPrim.functionV => "function"

/-- `b3.LoadProject` (lines 131-207).  The guard on line 133 compares
`typeof projectData` with `"object"`: primitives are reported via
`console.error` and a bare `return` (no throw); `null` passes the guard
(its `typeof` is `"object"`) and then crashes on line 142 reading
`.trees` of `null`; a project object runs pass 1 (`treesPass1`) to
completion before pass 2 (`loadTrees`) touches any node. -/
def LoadProject (input : ProjectInput) (names b3ns : List (String × NodeClass)) :
    Except JsError LoadResult :=
  if input.typeof ≠ "object" then
    Except.ok { trees := none, consoleErrors := ["No project data provided."] }
  else
    match input with
    | ProjectInput.jsNull =>
        Except.error (JsError.typeError "Cannot read properties of null (reading trees)")
    | ProjectInput.prim _ =>
        Except.error (JsError.typeError "unreachable: a primitive never has typeof object")
    | ProjectInput.obj p =>
        match loadTrees names b3ns { treesM := treesPass1 p.trees, arena := [] } p.trees with
        | Except.error e => Except.error e
        | Except.ok st =>
            Except.ok
              { trees := some { trees := st.treesM, arena := st.arena }
                consoleErrors := [] }

theorem lookupKV_append_left {α : Type} (l1 l2 : List (String × α)) (k : String) (v : α)
    (h : lookupKV l1 k = some v) : lookupKV (l1 ++ l2) k = some v := by
  induction l1 with
  | nil => simp [lookupKV] at h
  | cons p rest ih =>
      by_cases hp : p.1 = k
      · simp [lookupKV, hp] at h
        simp [lookupKV, hp, h]
      · simp [lookupKV, hp] at h
        simp [lookupKV, hp, ih h]

theorem lookupKV_append_right {α : Type} (l1 l2 : List (String × α)) (k : String)
    (h : lookupKV l1 k = none) : lookupKV (l1 ++ l2) k = lookupKV l2 k := by
  induction l1 with
  | nil => simp [lookupKV]
  | cons p rest ih =>
      by_cases hp : p.1 = k
      · simp [lookupKV, hp] at h
      · simp [lookupKV, hp] at h
        simp [lookupKV, hp, ih h]

theorem treesPass1Aux_not_mem (ts : List TreeSpec) : ∀ (k : Nat) (s : String),
    s ∉ ts.map TreeSpec.id → lookupKV (treesPass1Aux k ts) s = none := by
  induction ts with
  | nil => intro k s _; rfl
  | cons t rest ih =>
      intro k s hs
      rw [List.map_cons] at hs
      have hne : ¬t.id = s := fun h => hs (h ▸ List.mem_cons_self _ _)
      have hrest : s ∉ rest.map TreeSpec.id := fun h => hs (List.mem_cons_of_mem _ h)
      rw [treesPass1Aux, lookupKV_append_right _ _ _ (ih (k + 1) s hrest)]
      simp [lookupKV, hne]

theorem updateFirst_isSome {α : Type} (m : List (String × α)) (k k1 : String) (f : α → α) :
    (lookupKV (updateFirst m k f) k1).isSome = (lookupKV m k1).isSome := by
  induction m with
  | nil => rfl
  | cons p rest ih =>
      by_cases hp : p.1 = k
      · subst hp
        by_cases hp1 : p.1 = k1
        · subst hp1
          simp [updateFirst, lookupKV]
        · simp [updateFirst, lookupKV, hp1]
      · by_cases hp1 : p.1 = k1
        · subst hp1
          simp [updateFirst, lookupKV, hp]
        · simp [updateFirst, lookupKV, hp, hp1, ih]

theorem instantiateNode_subtree_of_isSome (treesM : List (String × BTree))
    (names b3ns : List (String × NodeClass)) (spec : NodeSpec)
    (h : (lookupKV treesM spec.name).isSome = true) :
    instantiateNode treesM names b3ns spec = Except.ok (PreCell.subtreeRef spec.name) := by
  rw [instantiateNode, if_pos h]

theorem instantiateNode_invalid (treesM : List (String × BTree))
    (names b3ns : List (String × NodeClass)) (spec : NodeSpec)
    (h1 : lookupKV treesM spec.name = none)
    (h2 : lookupKV names spec.name = none)
    (h3 : lookupKV b3ns spec.name = none) :
    instantiateNode treesM names b3ns spec =
      Except.error (JsError.evalError (invalidNodeNameMsg spec.name)) := by
  rw [instantiateNode, if_neg (by simp [h1]), if_neg (by simp [h2]), h3]

theorem instantiateNodes_error (treesM : List (String × BTree))
    (names b3ns : List (String × NodeClass)) (nodes : List (String × NodeSpec))
    (pr : String × NodeSpec) (hmem : pr ∈ nodes)
    (herr : ∀ c, instantiateNode treesM names b3ns pr.2 ≠ Except.ok c) :
    ∃ e, instantiateNodes treesM names b3ns nodes = Except.error e := by
  induction nodes with
  | nil => exact absurd hmem (List.not_mem_nil pr)
  | cons q rest ih =>
      rcases List.mem_cons.mp hmem with hq | hrest
      · subst hq
        cases hcall : instantiateNode treesM names b3ns pr.2 with
        | error e => exact ⟨e, by rw [instantiateNodes, hcall]⟩
        | ok c => exact absurd hcall (herr c)
      · cases hcall : instantiateNode treesM names b3ns q.2 with
        | error e => exact ⟨e, by rw [instantiateNodes, hcall]⟩
        | ok c =>
            obtain ⟨e, he⟩ := ih hrest
            exact ⟨e, by rw [instantiateNodes, hcall, he]⟩

theorem loadTrees_error (names b3ns : List (String × NodeClass)) (name0 : String)
    (ts : List TreeSpec) (t : TreeSpec) (pr : String × NodeSpec)
    (hmem : t ∈ ts) (hpr : pr ∈ t.nodes) (hname : pr.2.name = name0)
    (h2 : lookupKV names name0 = none) (h3 : lookupKV b3ns name0 = none) :
    ∀ st : LoadState, lookupKV st.treesM name0 = none →
      ∃ e, loadTrees names b3ns st ts = Except.error e := by
  induction ts with
  | nil => exact absurd hmem (List.not_mem_nil t)
  | cons u rest ih =>
      intro st hst
      rcases List.mem_cons.mp hmem with hu | hrest
      · subst hu
        have herr : ∀ c, instantiateNode st.treesM names b3ns pr.2 ≠ Except.ok c := by
          intro c hc
          rw [instantiateNode_invalid st.treesM names b3ns pr.2
            (hname ▸ hst) (hname ▸ h2) (hname ▸ h3)] at hc
          exact Except.noConfusion hc
        obtain ⟨e, he⟩ := instantiateNodes_error st.treesM names b3ns t.nodes pr hpr herr
        exact ⟨e, by rw [loadTrees, loadTreeStep, he]⟩
      · cases hstep : loadTreeStep names b3ns st u with
        | error e => exact ⟨e, by rw [loadTrees, hstep]⟩
        | ok st1 =>
            have hst1 : lookupKV st1.treesM name0 = none := by
              rw [loadTreeStep] at hstep
              cases hcells : instantiateNodes st.treesM names b3ns u.nodes with
              | error e => rw [hcells] at hstep; exact Except.noConfusion hstep
              | ok cells =>
                  rw [hcells] at hstep
                  have hst1eq := Except.ok.inj hstep
                  have hsome := updateFirst_isSome st.treesM u.id name0
                    (fun bt => { bt with root := refOf u.id cells u.root })
                  rw [← hst1eq]
                  rw [hst] at hsome
                  cases hlk : lookupKV (updateFirst st.treesM u.id
                      (fun bt => { bt with root := refOf u.id cells u.root })) name0 with
                  | none => rfl
                  | some v => rw [hlk] at hsome; simp at hsome
            obtain ⟨e, he⟩ := ih hrest st1 hst1
            refine ⟨e, ?_⟩
            rw [loadTrees, hstep]
            exact he

theorem LoadProject_obj_eq (p : ProjectData) (names b3ns : List (String × NodeClass)) :
    LoadProject (ProjectInput.obj p) names b3ns =
      match loadTrees names b3ns { treesM := treesPass1 p.trees, arena := [] } p.trees with
      | Except.error e => Except.error e
      | Except.ok st =>
          Except.ok
            { trees := some { trees := st.treesM, arena := st.arena }
              consoleErrors := [] } := by
  rw [LoadProject, if_neg (by simp [ProjectInput.typeof])]

/-- C5: For every project containing a node specification whose name
matches neither a custom-registry entry, nor a built-in node class, nor
another tree's id, LoadProject raises a fatal load error — so no tree
mapping is returned for that project — and the resolution of that very
node specification throws the descriptive EvalError of line 174, whose
message contains the offending name verbatim. -/
theorem loadProject_invalid_name (p : ProjectData) (names b3ns : List (String × NodeClass))
    (t : TreeSpec) (pr : String × NodeSpec)
    (ht : t ∈ p.trees) (hpr : pr ∈ t.nodes)
    (h1 : lookupKV (treesPass1 p.trees) pr.2.name = none)
    (h2 : lookupKV names pr.2.name = none)
    (h3 : lookupKV b3ns pr.2.name = none) :
    (∃ e, LoadProject (ProjectInput.obj p) names b3ns = Except.error e) ∧
    instantiateNode (treesPass1 p.trees) names b3ns pr.2 =
      Except.error (JsError.evalError (invalidNodeNameMsg pr.2.name)) ∧
    ∃ before after, invalidNodeNameMsg pr.2.name = before ++ pr.2.name ++ after := by
  refine ⟨?_, instantiateNode_invalid _ names b3ns pr.2 h1 h2 h3,
    "BehaviorTree.load: Invalid node name + \"", "\".", rfl⟩
  obtain ⟨e, he⟩ :=
    loadTrees_error names b3ns pr.2.name p.trees t pr ht hpr rfl h2 h3
      { treesM := treesPass1 p.trees, arena := [] } h1
  refine ⟨e, ?_⟩
  rw [LoadProject_obj_eq, he]

/-- A project whose single tree holds one node with the unregistered
name `Nope`. -/
def specNope : NodeSpec :=
  { name := "Nope", id := some "n1", title := none, description := none
    properties := none, children := none, child := none }

/-- The tree carrying `specNope`. -/
def treeNope : TreeSpec :=
  { id := "T", title := none, description := none, properties := none
    root := "n1", nodes := [("n1", specNope)] }

/-- The project carrying `treeNope`. -/
def projNope : ProjectData := { trees := [treeNope] }

/-- C5 (witness): the hypotheses of `loadProject_invalid_name` hold for
the concrete project `projNope` with empty registries, and the claimed
error behaviour follows. -/
theorem loadProject_invalid_name_witness :
    (treeNope ∈ projNope.trees ∧ ("n1", specNope) ∈ treeNope.nodes ∧
      lookupKV (treesPass1 projNope.trees) specNope.name = none ∧
      lookupKV ([] : List (String × NodeClass)) specNope.name = none ∧
      lookupKV ([] : List (String × NodeClass)) specNope.name = none) ∧
    ((∃ e, LoadProject (ProjectInput.obj projNope) [] [] = Except.error e) ∧
      instantiateNode (treesPass1 projNope.trees) [] [] specNope =
        Except.error (JsError.evalError (invalidNodeNameMsg specNope.name)) ∧
      ∃ before after, invalidNodeNameMsg specNope.name = before ++ specNope.name ++ after) :=
  ⟨⟨by decide, by decide, by decide, rfl, rfl⟩,
    loadProject_invalid_name projNope [] [] treeNope ("n1", specNope)
      (by decide) (by decide) (by decide) rfl rfl⟩

/-- The action-node specification rooted in tree `A`. -/
def specLeafA : NodeSpec :=
  { name := "Succeeder", id := some "a1", title := none, description := none
    properties := none, children := none, child := none }

/-- Tree `A`: a single action node as root. -/
def treeA : TreeSpec :=
  { id := "A", title := some "tree A", description := none, properties := none
    root := "a1", nodes := [("a1", specLeafA)] }

/-- The composite root specification of tree `B`, listing the sub-tree
slot `b2` as its only child. -/
def specSeqB : NodeSpec :=
  { name := "Sequence", id := some "b1", title := none, description := none
    properties := none, children := some ["b2"], child := none }

/-- The node specification of tree `B` whose name is tree `A`'s id: a
sub-tree reference. -/
def specRefB : NodeSpec :=
  { name := "A", id := some "b2", title := none, description := none
    properties := none, children := none, child := none }

/-- Tree `B`: a composite root whose only child is the sub-tree
reference to `A`. -/
def treeB : TreeSpec :=
  { id := "B", title := none, description := none, properties := none
    root := "b1", nodes := [("b1", specSeqB), ("b2", specRefB)] }

/-- The project holding trees `A` and `B`. -/
def projAB : ProjectData := { trees := [treeA, treeB] }

/-- The built-in `b3` namespace members used by the fixtures. -/
def b3Fixture : List (String × NodeClass) :=
  [("Sequence", { name := "Sequence", category := Category.composite }),
   ("Succeeder", { name := "Succeeder", category := Category.action })]

/-- The `trees` dictionary of a normally returned `LoadProject` result
(empty when the call errored or returned undefined). -/
def loadedTreesOf (r : Except JsError LoadResult) : List (String × BTree) :=
  match r with
  | Except.ok res =>
      match res.trees with
      | some lp => lp.trees
      | none => []
  | Except.error _ => []

/-- The node arena of a normally returned `LoadProject` result. -/
def loadedArenaOf (r : Except JsError LoadResult) : List ((String × String) × NodeInst) :=
  match r with
  | Except.ok res =>
      match res.trees with
      | some lp => lp.arena
      | none => []
  | Except.error _ => []

/-- C2 (counterexample): in the loaded project `projAB`, the node wired
into tree `B` at the sub-tree position is the `BehaviorTree` object
`trees["A"]` itself (`NodeRef.tree "A"`), while tree `A`'s own root is
the node instance `trees["A"].root = NodeRef.localNode "A" "a1"` — two
different objects, so the wired node is not reference-identical to the
referenced tree's root. -/
theorem loadProject_subtree_counterexample :
    (lookupKV (loadedArenaOf (LoadProject (ProjectInput.obj projAB) [] b3Fixture))
        ("B", "b1")).map NodeInst.children = some [some (NodeRef.tree "A")] ∧
    (lookupKV (loadedTreesOf (LoadProject (ProjectInput.obj projAB) [] b3Fixture))
        "A").map BTree.root = some (some (NodeRef.localNode "A" "a1")) ∧
    (NodeRef.tree "A" : NodeRef) ≠ NodeRef.localNode "A" "a1" := by
  refine ⟨?_, ?_, by decide⟩ <;> decide

/-- C2 (amended): for every node specification whose name is bound in
the `trees` dictionary, the instantiation pass binds that node slot to
the already-constructed `BehaviorTree` object itself, shared by
reference with no new instance — not to that tree's root node. -/
theorem loadProject_subtree_binds_tree (treesM : List (String × BTree))
    (names b3ns : List (String × NodeClass)) (spec : NodeSpec)
    (h : (lookupKV treesM spec.name).isSome = true) :
    instantiateNode treesM names b3ns spec = Except.ok (PreCell.subtreeRef spec.name) :=
  instantiateNode_subtree_of_isSome treesM names b3ns spec h

/-- C2 (witness): the amended theorem applied to a concrete `trees`
dictionary binding `A` and to the concrete sub-tree specification
`specRefB`. -/
theorem loadProject_subtree_binds_tree_witness :
    (lookupKV (treesPass1 projAB.trees) specRefB.name).isSome = true ∧
    instantiateNode (treesPass1 projAB.trees) [] b3Fixture specRefB =
      Except.ok (PreCell.subtreeRef "A") :=
  ⟨by decide, loadProject_subtree_binds_tree (treesPass1 projAB.trees) [] b3Fixture
    specRefB (by decide)⟩

/-- The `BehaviorTree` that pass 1 builds for a specification with a
nonempty id: the spec's metadata over the constructor defaults, root
still unset. -/
def shallowOf (t : TreeSpec) : BTree :=
  { id := t.id
    title := jsOrStr t.title ""
    description := jsOrStr t.description ""
    properties := jsOrProps t.properties []
    root := none }

theorem mkShallowTree_of_ne (k : Nat) (t : TreeSpec) (h : t.id ≠ "") :
    mkShallowTree k t = shallowOf t := by
  simp [mkShallowTree, newBehaviorTree, shallowOf, jsOrStr, h]

theorem treesPass1Aux_lookup (ts : List TreeSpec) : ∀ (k : Nat) (t : TreeSpec),
    t ∈ ts → (ts.map TreeSpec.id).Nodup → t.id ≠ "" →
    lookupKV (treesPass1Aux k ts) t.id = some (shallowOf t) := by
  induction ts with
  | nil => intro k t hmem; exact absurd hmem (List.not_mem_nil t)
  | cons u rest ih =>
      intro k t hmem hnd hne
      rw [List.map_cons, List.nodup_cons] at hnd
      rcases List.mem_cons.mp hmem with hu | hrest
      · subst hu
        have hnone : lookupKV (treesPass1Aux (k + 1) rest) t.id = none :=
          treesPass1Aux_not_mem rest (k + 1) t.id hnd.1
        rw [treesPass1Aux, lookupKV_append_right _ _ _ hnone]
        simp [lookupKV, mkShallowTree_of_ne k t hne]
      · rw [treesPass1Aux,
          lookupKV_append_left _ _ _ _ (ih (k + 1) t hrest hnd.2 hne)]

/-- C9: For every project with distinct nonempty tree ids, pass 1 of
LoadProject (which runs to completion before any tree's nodes are
loaded or wired — `LoadProject` hands `loadTrees` the finished
`treesPass1` dictionary) creates a `BehaviorTree` entry carrying the
specification's id/title/description/properties for every tree of the
project; consequently a node specification naming any project tree
resolves to that existing entry during pass 2, regardless of where the
referencing and the referenced tree stand in the project's tree list. -/
theorem loadProject_pass1_before_wiring (p : ProjectData)
    (names b3ns : List (String × NodeClass)) (t : TreeSpec)
    (hmem : t ∈ p.trees) (hnd : (p.trees.map TreeSpec.id).Nodup) (hne : t.id ≠ "") :
    lookupKV (treesPass1 p.trees) t.id = some (shallowOf t) ∧
    ∀ spec : NodeSpec, spec.name = t.id →
      instantiateNode (treesPass1 p.trees) names b3ns spec =
        Except.ok (PreCell.subtreeRef spec.name) := by
  have hlk := treesPass1Aux_lookup p.trees 0 t hmem hnd hne
  refine ⟨hlk, fun spec hs => ?_⟩
  apply instantiateNode_subtree_of_isSome
  rw [hs]
  have hlk2 : lookupKV (treesPass1 p.trees) t.id = some (shallowOf t) := hlk
  rw [hlk2]
  rfl

/-- The project listing the referencing tree `B` before the referenced
tree `A`. -/
def projBA : ProjectData := { trees := [treeB, treeA] }

/-- C9 (witness): in `projBA` the referencing tree comes first, yet the
pass-1 dictionary already holds `A`'s shallow `BehaviorTree` and the
sub-tree specification `specRefB` resolves to it. -/
theorem loadProject_pass1_before_wiring_witness :
    (treeA ∈ projBA.trees ∧ (projBA.trees.map TreeSpec.id).Nodup ∧ treeA.id ≠ "") ∧
    lookupKV (treesPass1 projBA.trees) treeA.id = some (shallowOf treeA) ∧
    instantiateNode (treesPass1 projBA.trees) [] b3Fixture specRefB =
      Except.ok (PreCell.subtreeRef "A") := by
  refine ⟨by decide, ?_, ?_⟩
  · exact (loadProject_pass1_before_wiring projBA [] b3Fixture treeA
      (by decide) (by decide) (by decide)).1
  · exact (loadProject_pass1_before_wiring projBA [] b3Fixture treeA
      (by decide) (by decide) (by decide)).2 specRefB rfl

/-- A node specification whose name is registered in the caller's
custom dictionary. -/
def specCustom : NodeSpec :=
  { name := "MyCustom", id := some "n1", title := none, description := none
    properties := none, children := none, child := none }

/-- The tree carrying `specCustom`. -/
def treeCustom : TreeSpec :=
  { id := "T", title := none, description := none, properties := none
    root := "n1", nodes := [("n1", specCustom)] }

/-- The project carrying `treeCustom`. -/
def projCustom : ProjectData := { trees := [treeCustom] }

/-- The caller-supplied custom registry binding `MyCustom`. -/
def namesCustom : List (String × NodeClass) :=
  [("MyCustom", { name := "MyCustom", category := Category.action })]

/-- C3: loading a project whose node name is registered in the
caller-supplied custom dictionary does not instantiate the custom
class; line 166 tests `spec.name in names`, but line 168 then reads
`this._nodes[spec.name]` — `this` is `undefined` inside the
strict-mode `forEach` callback, so the load throws a TypeError
(and even with a bound `this`, `names` itself would never be
consulted).  The claim describes the intent the code comment states
("Look for the name in custom nodes"); the code is the slip. -/
theorem loadProject_custom_node_typeerror :
    LoadProject (ProjectInput.obj projCustom) namesCustom b3Fixture =
      Except.error (JsError.typeError
        "Cannot read properties of undefined (reading _nodes)") := rfl

/-- C7 (counterexample): `null` is not an object, yet
`LoadProject(null)` is not reported as an explicit failure — it throws:
`typeof null` is `"object"`, so the guard of line 133 passes and line
142 crashes reading `.trees` of `null`. -/
theorem loadProject_null_counterexample :
    LoadProject ProjectInput.jsNull [] [] =
      Except.error (JsError.typeError
        "Cannot read properties of null (reading trees)") := rfl

/-- C7 (amended): for every input whose JS `typeof` is not `"object"`
(undefined, booleans, numbers, strings, symbols, bigints, functions),
LoadProject reports an explicit failure instead of crashing: it logs
`No project data provided.` via `console.error` and returns `undefined`
without throwing, producing no tree graph.  (`null` is excluded: its
`typeof` is `"object"`, and the call then throws a TypeError.) -/
theorem loadProject_nonobject_reports (t : JsPrim) (names b3ns : List (String × NodeClass)) :
    LoadProject (ProjectInput.prim t) names b3ns =
      Except.ok { trees := none, consoleErrors := ["No project data provided."] } := by
  cases t <;> rfl
